import Mathlib

/-!
Shallow embedding of the bruh-thalyzer firmware (src/main.py, a single file
concatenating config.py, hardware.py, sensor.py, logging.py and main.py):
the MQ3 sensor conversion pipeline (`_calculate_rs`,
`read_raw_value_of_alcohol`, `get_smoothed_reading`, `calibrate`) and the
button-driven control loop of `main`, together with the press-timestamp
bookkeeping of `Hardware.check_button`.

Conventions: Python floats are modelled as exact rationals (`ℚ`) where the
code only does field arithmetic, and as reals (`ℝ`) where `math.pow` with
the non-integer exponent -1.43068 appears.  A Python runtime fault
(ZeroDivisionError in `_calculate_rs` when the voltage is zero, ValueError
from `math.pow` on a non-positive base with this negative non-integer
exponent) is modelled as `none`.  `utime.time()` returns whole seconds and
is modelled as a `ℕ` supplied with each poll of the loop.
-/

namespace MQ3

/-- config.py: `AIR_R0_RATIO = 60.0`. -/
def airR0Ratio : ℚ := 60

/-- config.py: `WARM_UP_TIME = 20`. -/
def WARM_UP_TIME : ℕ := 20

/-- config.py: `NUM_CALIBRATION_READINGS = 10`. -/
def NUM_CALIBRATION_READINGS : ℕ := 10

/-- config.py: `LONG_PRESS_TIME = 3` (seconds). -/
def LONG_PRESS_TIME : ℕ := 3

/-- sensor.py `_calculate_rs`, line 103: `sensor_volt = sensor_value * (3.3 / 4095.0)`. -/
def sensorVolt (sample : ℕ) : ℚ := (sample : ℚ) * (3.3 / 4095)

/-- sensor.py `_calculate_rs`, line 104: `(3.3 * 1000.0 / sensor_volt) - 1000.0`
(meaningful only when `sensorVolt sample ≠ 0`). -/
def rsValue (sample : ℕ) : ℚ := 3.3 * 1000 / sensorVolt sample - 1000

/-- sensor.py `MQ3Sensor._calculate_rs`: the sensor resistance computed from one
raw ADC sample; `none` models the ZeroDivisionError Python raises when
`sensor_volt` is zero. -/
def calculateRs (sample : ℕ) : Option ℚ :=
  if sensorVolt sample = 0 then none else some (rsValue sample)

/-- sensor.py `MQ3Sensor.read_raw_value_of_alcohol`, lines 109-111: the guard
`if self.r0 == 0: return 0` followed by `0.4 * math.pow((rs / self.r0), -1.43068)`.
`math.pow` with this negative non-integer exponent raises ValueError exactly
when its base `rs / r0` is not strictly positive; that fault is `none`. -/
noncomputable def concentrationFromResistance (rs r0 : ℝ) : Option ℝ :=
  if r0 = 0 then some 0
  else if rs / r0 ≤ 0 then none
  else some (0.4 * (rs / r0) ^ (-1.43068 : ℝ))

/-- sensor.py `MQ3Sensor.read_raw_value_of_alcohol`: first `_calculate_rs`
(which can fault at zero voltage), then the conversion to a concentration. -/
noncomputable def readRawValueOfAlcohol (sample : ℕ) (r0 : ℝ) : Option ℝ :=
  (calculateRs sample).bind fun rs => concentrationFromResistance (rs : ℝ) r0

/-- sensor.py `MQ3Sensor.__init__`: `self.max_readings = 10`. -/
def maxReadings : ℕ := 10

/-- sensor.py `MQ3Sensor.__init__`: `self.r0 = 1.0`, the value `r0` holds
before any calibration has run. -/
def initialR0 : ℚ := 1

/-- sensor.py `get_smoothed_reading`, lines 116-118: append the new reading,
then `if len(self.readings) > self.max_readings: self.readings.pop(0)`. -/
def pushReading (readings : List ℝ) (x : ℝ) : List ℝ :=
  let r := readings ++ [x]
  if maxReadings < r.length then r.tail else r

/-- sensor.py `get_smoothed_reading`, line 119:
`sum(self.readings) / len(self.readings)`. -/
noncomputable def average (l : List ℝ) : ℝ := l.sum / l.length

/-- sensor.py `MQ3Sensor.get_smoothed_reading`: one full call, returning the
smoothed value together with the updated window (`none` when the embedded
read faults). -/
noncomputable def getSmoothedReading (sample : ℕ) (r0 : ℝ) (readings : List ℝ) :
    Option (ℝ × List ℝ) :=
  (readRawValueOfAlcohol sample r0).map fun raw =>
    let r := pushReading readings raw
    (average r, r)

/-- Iterated `get_smoothed_reading` over a list of raw samples, collecting the
returned smoothed values in order. -/
noncomputable def smoothRun (r0 : ℝ) : List ℕ → List ℝ → Option (List ℝ)
  | [], _ => some []
  | s :: rest, readings =>
    match getSmoothedReading s r0 readings with
    | none => none
    | some (v, r2) => (smoothRun r0 rest r2).map fun l => v :: l

/-- Running means of a list: entry k is the mean of the first k+1 values.
Stated from the spec's words "the running mean of the converted values at
each step", for comparison with `smoothRun`. -/
noncomputable def runningMeans (cs : List ℝ) : List ℝ :=
  (List.range cs.length).map fun k => (cs.take (k + 1)).sum / ((k + 1 : ℕ) : ℝ)

/-- Concentration the pipeline computes at raw sample `s` with `r0 = 1000`
(abbreviation for stating concrete-value lemmas). -/
noncomputable def concAt1000 (s : ℕ) : ℝ :=
  0.4 * ((rsValue s : ℝ) / 1000) ^ (-1.43068 : ℝ)

/-- sensor.py `calibrate`, lines 91-94: the loop
`for _ in range(NUM_CALIBRATION_READINGS): r0_sum += self._calculate_rs() / AIR_R0_RATIO`
with explicit accumulator; `none` models a ZeroDivisionError escaping the loop. -/
def calibSum : List ℕ → ℚ → Option ℚ
  | [], acc => some acc
  | s :: rest, acc =>
    match calculateRs s with
    | none => none
    | some r => calibSum rest (acc + r / airR0Ratio)

/-- sensor.py `MQ3Sensor.calibrate`, line 95: `self.r0 = r0_sum / NUM_CALIBRATION_READINGS`,
applied to the consumed sample list. -/
def calibrate (samples : List ℕ) : Option ℚ :=
  (calibSum samples 0).map fun t => t / (NUM_CALIBRATION_READINGS : ℚ)

/-- The `NUM_CALIBRATION_READINGS` consecutive raw samples the calibration
loop reads from the analog source stream `f`, starting at stream index `c`. -/
def calibSamples (f : ℕ → ℕ) (c : ℕ) : List ℕ :=
  (List.range NUM_CALIBRATION_READINGS).map fun i => f (c + i)

/-- A full `calibrate()` run reading from the start of the sample stream `f`. -/
def calibrateStream (f : ℕ → ℕ) : Option ℚ :=
  calibrate (calibSamples f 0)

/-- sensor.py `calibrate`, lines 90 and 97: the display messages the run
emits, in order ("Calibrating..." before the loop; "Calibration done" after,
reached only when no sample faulted). -/
def calibrateMessages (samples : List ℕ) : List String :=
  "Calibrating..." :: (if (calibSum samples 0).isSome then ["Calibration done"] else [])

/-- main.py `class State`: `OFF = 0`, `ON = 1`, `CALIBRATING = 2`. -/
inductive DeviceState where
  | off
  | on
  | calibrating
deriving DecidableEq, Repr

/-- An observable I/O action of the control loop: one ADC read
(`hardware.mq3_pin.read()`), one fixed `display_message` text, or the block
of four formatted reading lines (`Raw/PPM/BAC/g per mL`) whose rendered float
contents are abstracted. -/
inductive Event where
  | sample
  | display (msg : String)
  | displayReadings
deriving DecidableEq, Repr

/-- The control-relevant mutable state of `main`'s loop: the `State` value,
`Hardware.button_press_time`, `last_reading_time`, `sensor.r0`, and a cursor
giving how many ADC samples have been consumed from the analog stream.  The
`sensor.readings` window is not carried here: its contents never influence
control flow or the event trace (it is modelled by `pushReading`/`average`). -/
structure LoopState where
  state : DeviceState
  buttonPressTime : ℕ
  lastReadingTime : ℕ
  r0 : ℚ
  cursor : ℕ
deriving DecidableEq, Repr

/-- main.py lines 163-167: `state = State.OFF`, `hw.button_press_time = 0`,
`last_reading_time = 0`, `sensor.r0 = 1.0`, nothing sampled yet. -/
def initialState : LoopState :=
  { state := DeviceState.off, buttonPressTime := 0, lastReadingTime := 0,
    r0 := 1, cursor := 0 }

/-- hardware.py `Hardware.check_button`, lines 52-60: returns the duration in
whole seconds together with the new `button_press_time`.  While pressed the
timestamp is recorded on the first poll and the elapsed time is returned; on
a poll with the button up, the final duration is returned once (0 when no
press was pending) and the timestamp resets to 0. -/
def checkButton (bpt now : ℕ) (pressed : Bool) : ℕ × ℕ :=
  if pressed then
    let b := if bpt = 0 then now else bpt
    (now - b, b)
  else
    (if 0 < bpt then now - bpt else 0, 0)

/-- Decidable mirror of `readRawValueOfAlcohol sample r0 = none`: the read
faults when the voltage is zero, or when `r0 ≠ 0` and the resistance ratio
is not strictly positive (the `math.pow` domain fault). -/
def readFaults (sample : ℕ) (r0 : ℚ) : Bool :=
  decide (sensorVolt sample = 0) ||
    (decide (r0 ≠ 0) && decide (rsValue sample / r0 ≤ 0))

/-- The ADC-read events of one calibration loop run under device state `st`:
one read per iteration, stopping after the read whose zero sample makes the
resistance computation fault. -/
def sampleEvents (st : DeviceState) : List ℕ → List (DeviceState × Event)
  | [] => []
  | s :: rest =>
    (st, Event.sample) :: (if s = 0 then [] else sampleEvents st rest)

/-- The I/O trace of one `sensor.calibrate()` call run under device state
`st`: "Calibrating..." first, the sample reads, then "Calibration done"
when no read faulted. -/
def calibrateEvents (st : DeviceState) (samples : List ℕ) : List (DeviceState × Event) :=
  (st, Event.display "Calibrating...") ::
    (sampleEvents st samples ++
      (if (calibSum samples 0).isSome then [(st, Event.display "Calibration done")] else []))

/-- sensor.py `warm_up`, lines 78-83: "Warming up..." then the 20 dot-strings
`"." * i`, all displayed while the device state is already ON (main.py sets
`state = State.ON` before calling `sensor.warm_up()`). -/
def warmUpEvents : List (DeviceState × Event) :=
  (DeviceState.on, Event.display "Warming up...") ::
    (List.range WARM_UP_TIME).map fun i =>
      (DeviceState.on, Event.display (String.mk (List.replicate i '.')))

/-- main.py lines 188-203: the periodic reading block.  It runs only when
`state == State.ON` and at least `reading_interval = 1` second elapsed; it
reads one sample (which can fault: zero voltage, or zero resistance ratio fed
to `math.pow`) and renders the four reading lines. -/
def readingPhase (f : ℕ → ℕ) (ls : LoopState) (now : ℕ) :
    Option LoopState × List (DeviceState × Event) :=
  if ls.state = DeviceState.on then
    if 1 ≤ now - ls.lastReadingTime then
      if readFaults (f ls.cursor) ls.r0 then
        (none, [(DeviceState.on, Event.sample)])
      else
        (some { ls with cursor := ls.cursor + 1, lastReadingTime := now },
          [(DeviceState.on, Event.sample), (DeviceState.on, Event.displayReadings)])
    else (some ls, [])
  else (some ls, [])

/-- main.py lines 169-205: one iteration of the `while True` loop, driven by
whether the button pin reads pressed and by the current `utime.time()` value.
Returns the successor state (`none` when an unhandled Python fault escapes)
and the iteration's I/O events, each tagged with the `State` value current
when it happened. -/
def loopStep (f : ℕ → ℕ) (ls : LoopState) (pressed : Bool) (now : ℕ) :
    Option LoopState × List (DeviceState × Event) :=
  let cb := checkButton ls.buttonPressTime now pressed
  let d := cb.1
  let ls1 : LoopState := { ls with buttonPressTime := cb.2 }
  if 0 < d then
    if LONG_PRESS_TIME ≤ d then
      if ls1.state = DeviceState.off then
        let samples := calibSamples f ls1.cursor
        let evs := warmUpEvents ++ calibrateEvents DeviceState.on samples
        match calibrate samples with
        | none => (none, evs)
        | some r0v =>
          let ls2 : LoopState :=
            { ls1 with
                state := DeviceState.on, r0 := r0v,
                cursor := ls1.cursor + NUM_CALIBRATION_READINGS }
          let rp := readingPhase f ls2 now
          (rp.1, (evs ++ [(DeviceState.on, Event.display "ON")]) ++ rp.2)
      else
        let ls2 : LoopState := { ls1 with state := DeviceState.off }
        let rp := readingPhase f ls2 now
        (rp.1, (DeviceState.off, Event.display "OFF") :: rp.2)
    else if ls1.state = DeviceState.on then
      let samples := calibSamples f ls1.cursor
      let evs := calibrateEvents DeviceState.calibrating samples
      match calibrate samples with
      | none => (none, evs)
      | some r0v =>
        let ls2 : LoopState :=
          { ls1 with
              state := DeviceState.on, r0 := r0v,
              cursor := ls1.cursor + NUM_CALIBRATION_READINGS }
        let rp := readingPhase f ls2 now
        (rp.1, evs ++ rp.2)
    else
      let rp := readingPhase f ls1 now
      (rp.1, rp.2)
  else
    let rp := readingPhase f ls1 now
    (rp.1, rp.2)

/-- Iterated `loopStep` over a list of polls `(pressed, now)`, concatenating
the event traces; stops at the poll where a fault escapes. -/
def runLoop (f : ℕ → ℕ) : LoopState → List (Bool × ℕ) →
    Option LoopState × List (DeviceState × Event)
  | ls, [] => (some ls, [])
  | ls, (p, t) :: rest =>
    match loopStep f ls p t with
    | (none, evs) => (none, evs)
    | (some ls2, evs) =>
      let r := runLoop f ls2 rest
      (r.1, evs ++ r.2)

/-- Constant analog stream reading 2000 on every ADC poll. -/
def f2000 : ℕ → ℕ := fun _ => 2000

/-- The loop state reached from `initialState` under `f2000` by the polls
`[(true, 10), (false, 13), (true, 40)]`: device ON (turned on by a 3-second
press reported on release at t = 13), button held again since t = 40. -/
def stateC4 : LoopState :=
  { state := DeviceState.on, buttonPressTime := 40, lastReadingTime := 40,
    r0 := 419 / 24, cursor := 12 }

/-! Helper lemmas about the sensor arithmetic. -/

theorem sensorVolt_eq_zero {s : ℕ} : sensorVolt s = 0 ↔ s = 0 := by
  have h : ((3.3 : ℚ) / 4095) ≠ 0 := by norm_num
  simp [sensorVolt, h]

theorem calculateRs_of_pos {s : ℕ} (h : s ≠ 0) : calculateRs s = some (rsValue s) := by
  rw [calculateRs, if_neg]
  simp [sensorVolt_eq_zero, h]

theorem rsValue_eq_div {s : ℕ} (h : s ≠ 0) :
    rsValue s = (4095000 - 1000 * (s : ℚ)) / (s : ℚ) := by
  have hs : ((s : ℚ)) ≠ 0 := Nat.cast_ne_zero.mpr h
  rw [rsValue, sensorVolt]
  field_simp
  ring

theorem rsValue_sign {s : ℕ} (h1 : 1 ≤ s) (h2 : s ≤ 4095) :
    0 ≤ rsValue s ∧ (0 < rsValue s ↔ s < 4095) := by
  have hs0 : (0 : ℚ) < (s : ℚ) := by exact_mod_cast Nat.lt_of_lt_of_le Nat.zero_lt_one h1
  have hcast : ((s : ℚ)) ≤ 4095 := by exact_mod_cast h2
  rw [rsValue_eq_div (by omega)]
  constructor
  · apply div_nonneg _ hs0.le
    linarith
  · rw [lt_div_iff₀ hs0, zero_mul, sub_pos]
    constructor
    · intro h
      by_contra hc
      have : (4095 : ℚ) ≤ (s : ℚ) := by exact_mod_cast Nat.le_of_not_lt hc
      linarith
    · intro h
      have : ((s : ℚ)) < 4095 := by exact_mod_cast h
      linarith

theorem concentrationFromResistance_some {rs r0 : ℝ} (h0 : r0 ≠ 0) (h : 0 < rs / r0) :
    concentrationFromResistance rs r0 = some (0.4 * (rs / r0) ^ (-1.43068 : ℝ)) := by
  rw [concentrationFromResistance, if_neg h0, if_neg (not_le.mpr h)]

theorem concValue_le_of_one_le {x : ℝ} (hx : 1 ≤ x) :
    0.4 * x ^ (-1.43068 : ℝ) ≤ 0.4 := by
  have h := Real.rpow_le_one_of_one_le_of_nonpos hx (by norm_num : (-1.43068 : ℝ) ≤ 0)
  nlinarith

theorem concValue_gt_of_lt_one {x : ℝ} (h0 : 0 < x) (hx : x < 1) :
    0.4 < 0.4 * x ^ (-1.43068 : ℝ) := by
  have h : 1 < x ^ (-1.43068 : ℝ) :=
    (Real.one_lt_rpow_iff_of_pos h0).mpr (Or.inr ⟨hx, by norm_num⟩)
  nlinarith

theorem readRaw_eq_concAt {s : ℕ} (hs : s ≠ 0) (hrs : 0 < rsValue s) :
    readRawValueOfAlcohol s 1000 = some (concAt1000 s) := by
  rw [readRawValueOfAlcohol, calculateRs_of_pos hs]
  show concentrationFromResistance ((rsValue s : ℚ) : ℝ) 1000 = some (concAt1000 s)
  rw [concentrationFromResistance_some (by norm_num)
    (div_pos (by exact_mod_cast hrs) (by norm_num)), concAt1000]

theorem rsValue_1000 : rsValue 1000 = 3095 := by norm_num [rsValue, sensorVolt]

theorem rsValue_2000 : rsValue 2000 = 2095 / 2 := by norm_num [rsValue, sensorVolt]

theorem rsValue_3000 : rsValue 3000 = 365 := by norm_num [rsValue, sensorVolt]

theorem rsValue_4000 : rsValue 4000 = 95 / 4 := by norm_num [rsValue, sensorVolt]

theorem rsValue_4095 : rsValue 4095 = 0 := by norm_num [rsValue, sensorVolt]

theorem concAt1000_le_04_1000 : concAt1000 1000 ≤ 0.4 := by
  rw [concAt1000, rsValue_1000]
  exact concValue_le_of_one_le (by norm_num)

theorem concAt1000_le_04_2000 : concAt1000 2000 ≤ 0.4 := by
  rw [concAt1000, rsValue_2000]
  exact concValue_le_of_one_le (by norm_num)

theorem concAt1000_gt_04_3000 : 0.4 < concAt1000 3000 := by
  rw [concAt1000, rsValue_3000]
  exact concValue_gt_of_lt_one (by norm_num) (by norm_num)

theorem concAt1000_gt_04_4000 : 0.4 < concAt1000 4000 := by
  rw [concAt1000, rsValue_4000]
  exact concValue_gt_of_lt_one (by norm_num) (by norm_num)

/-! Helper lemmas about calibration. -/

theorem calibSum_eq_sum (samples : List ℕ) (h : ∀ s ∈ samples, s ≠ 0) :
    ∀ acc : ℚ, calibSum samples acc =
      some (acc + (samples.map fun s => rsValue s / airR0Ratio).sum) := by
  induction samples with
  | nil => intro acc; simp [calibSum]
  | cons s rest ih =>
    intro acc
    rw [calibSum, calculateRs_of_pos (h s (List.mem_cons_self s rest))]
    show calibSum rest (acc + rsValue s / airR0Ratio) = _
    rw [ih (fun x hx => h x (List.mem_cons_of_mem s hx)) (acc + rsValue s / airR0Ratio)]
    simp [add_assoc]

theorem calibrate_eq_mean (samples : List ℕ) (h : ∀ s ∈ samples, s ≠ 0) :
    calibrate samples =
      some ((samples.map fun s => rsValue s / airR0Ratio).sum /
        (NUM_CALIBRATION_READINGS : ℚ)) := by
  rw [calibrate, calibSum_eq_sum samples h 0, Option.map_some']
  rw [zero_add]

theorem calibSamples_const (c : ℕ) (v : ℕ) :
    calibSamples (fun _ => v) c = List.replicate NUM_CALIBRATION_READINGS v := by
  simp [calibSamples]

theorem calibrate_const2000 :
    calibrate (List.replicate NUM_CALIBRATION_READINGS 2000) = some (419 / 24) := by
  rw [calibrate_eq_mean _ (by intro s hs; rw [List.eq_of_mem_replicate hs]; omega)]
  norm_num [NUM_CALIBRATION_READINGS, rsValue_2000, airR0Ratio]

theorem calibrateStream_f2000 : calibrateStream f2000 = some (419 / 24) := by
  rw [calibrateStream]
  show calibrate (calibSamples (fun _ => 2000) 0) = _
  rw [calibSamples_const, calibrate_const2000]

theorem rs_sum_sign (samples : List ℕ) (h : ∀ s ∈ samples, 1 ≤ s ∧ s ≤ 4095) :
    0 ≤ (samples.map fun s => rsValue s / airR0Ratio).sum ∧
      (0 < (samples.map fun s => rsValue s / airR0Ratio).sum ↔
        ∃ s ∈ samples, s < 4095) := by
  induction samples with
  | nil => simp
  | cons s rest ih =>
    obtain ⟨hs1, hs2⟩ := h s (List.mem_cons_self s rest)
    obtain ⟨hrs0, hrsiff⟩ := rsValue_sign hs1 hs2
    obtain ⟨ih0, ihiff⟩ := ih (fun x hx => h x (List.mem_cons_of_mem s hx))
    have ht0 : 0 ≤ rsValue s / airR0Ratio := by
      apply div_nonneg hrs0; norm_num [airR0Ratio]
    have htiff : 0 < rsValue s / airR0Ratio ↔ s < 4095 := by
      rw [← hrsiff]
      constructor
      · intro hlt; by_contra hc
        have : rsValue s = 0 := le_antisymm (le_of_not_lt hc) hrs0
        rw [this] at hlt; norm_num at hlt
      · intro hlt; apply div_pos hlt; norm_num [airR0Ratio]
    constructor
    · simpa using add_nonneg ht0 ih0
    · simp only [List.map_cons, List.sum_cons, List.mem_cons]
      constructor
      · intro hpos
        by_contra hc
        push_neg at hc
        have h1 : rsValue s / airR0Ratio = 0 := by
          have hn : ¬ 0 < rsValue s / airR0Ratio := by
            intro hlt
            have := hc s (Or.inl rfl)
            have := htiff.mp hlt
            omega
          exact le_antisymm (le_of_not_lt hn) ht0
        have h2 : ¬ 0 < (rest.map fun x => rsValue x / airR0Ratio).sum := by
          intro hlt
          obtain ⟨x, hx, hxlt⟩ := ihiff.mp hlt
          have := hc x (Or.inr hx)
          omega
        have h2' : (rest.map fun x => rsValue x / airR0Ratio).sum = 0 :=
          le_antisymm (le_of_not_lt h2) ih0
        rw [h1, h2'] at hpos
        norm_num at hpos
      · rintro ⟨x, hx | hx, hxlt⟩
        · subst hx
          have := htiff.mpr hxlt
          linarith
        · have := ihiff.mpr ⟨x, hx, hxlt⟩
          linarith

theorem getSmoothed_eq {s : ℕ} (hs : s ≠ 0) (hrs : 0 < rsValue s) (readings : List ℝ) :
    getSmoothedReading s 1000 readings =
      some (average (pushReading readings (concAt1000 s)),
        pushReading readings (concAt1000 s)) := by
  rw [getSmoothedReading, readRaw_eq_concAt hs hrs, Option.map_some']

theorem avg_single (x : ℝ) : average [x] = x := by
  simp [average]

/-! Claim C1 (conversion pipeline): counterexample, amended theorem, witness. -/

/-- Claim C1, counterexample.  The resistance and concentration formulas are as
claimed, but the concrete expectations fail: at raw sample 1000 the code
computes resistance 3095 (not within 1.0 of the claimed 9900.0), and with
r0 = 1000 the concentration it computes is at most 0.4 (not within 0.001 of
the claimed 3.4846). -/
theorem claim1_counterexample :
    calculateRs 1000 = some 3095 ∧
    ¬ |(3095 : ℚ) - 9900| < 1 ∧
    readRawValueOfAlcohol 1000 1000 = some (concAt1000 1000) ∧
    concAt1000 1000 ≤ 0.4 ∧
    ¬ |concAt1000 1000 - 3.4846| < 0.001 := by
  refine ⟨by rw [calculateRs_of_pos (by omega), rsValue_1000], ?_,
    readRaw_eq_concAt (by omega) (by rw [rsValue_1000]; norm_num),
    concAt1000_le_04_1000, ?_⟩
  · intro h
    rw [show (3095 : ℚ) - 9900 = -6805 from by norm_num, abs_neg,
      abs_of_nonneg (by norm_num : (0 : ℚ) ≤ 6805)] at h
    norm_num at h
  · intro h
    have h2 := (abs_lt.mp h).1
    have h3 := concAt1000_le_04_1000
    linarith

/-- Claim C1, amended.  For every raw sample s in [1, 4095] the computed
resistance equals (3.3 * 1000 / (s * (3.3 / 4095))) - 1000, and for r0 > 0
and resistance > 0 the concentration equals 0.4 * (resistance / r0) ^
(-1.43068); but the resistances for [1000, 2000, 3000, 4000] are exactly
[3095, 1047.5, 365, 23.75] (not ≈ [9900, 3900, 1900, 900]), at sample 4095
the resistance is 0 and the power computation faults, and with r0 = 1000 the
four concentrations are the power law at the true resistances — the first
two at most 0.4, the last two above 0.4 (not ≈ [3.4846, 0.8787, 0.3651,
0.1645]). -/
theorem claim1_amended :
    (∀ s : ℕ, 1 ≤ s → s ≤ 4095 →
      calculateRs s = some (3.3 * 1000 / ((s : ℚ) * (3.3 / 4095)) - 1000)) ∧
    (∀ rs r0 : ℝ, 0 < r0 → 0 < rs →
      concentrationFromResistance rs r0 = some (0.4 * (rs / r0) ^ (-1.43068 : ℝ))) ∧
    [1000, 2000, 3000, 4000].map calculateRs =
      [some 3095, some (2095 / 2), some 365, some (95 / 4)] ∧
    (calculateRs 4095 = some 0 ∧ concentrationFromResistance 0 1000 = none) ∧
    readRawValueOfAlcohol 1000 1000 = some (concAt1000 1000) ∧
    readRawValueOfAlcohol 2000 1000 = some (concAt1000 2000) ∧
    readRawValueOfAlcohol 3000 1000 = some (concAt1000 3000) ∧
    readRawValueOfAlcohol 4000 1000 = some (concAt1000 4000) ∧
    concAt1000 1000 ≤ 0.4 ∧ concAt1000 2000 ≤ 0.4 ∧
    0.4 < concAt1000 3000 ∧ 0.4 < concAt1000 4000 := by
  refine ⟨?_, ?_, ?_, ⟨?_, ?_⟩,
    readRaw_eq_concAt (by omega) (by rw [rsValue_1000]; norm_num),
    readRaw_eq_concAt (by omega) (by rw [rsValue_2000]; norm_num),
    readRaw_eq_concAt (by omega) (by rw [rsValue_3000]; norm_num),
    readRaw_eq_concAt (by omega) (by rw [rsValue_4000]; norm_num),
    concAt1000_le_04_1000, concAt1000_le_04_2000,
    concAt1000_gt_04_3000, concAt1000_gt_04_4000⟩
  · intro s h1 _
    rw [calculateRs_of_pos (by omega)]
    rfl
  · intro rs r0 h0 hrs
    exact concentrationFromResistance_some (ne_of_gt h0) (div_pos hrs h0)
  · simp only [List.map_cons, List.map_nil]
    rw [calculateRs_of_pos (by omega : (1000 : ℕ) ≠ 0), rsValue_1000,
      calculateRs_of_pos (by omega : (2000 : ℕ) ≠ 0), rsValue_2000,
      calculateRs_of_pos (by omega : (3000 : ℕ) ≠ 0), rsValue_3000,
      calculateRs_of_pos (by omega : (4000 : ℕ) ≠ 0), rsValue_4000]
  · rw [calculateRs_of_pos (by omega), rsValue_4095]
  · rw [concentrationFromResistance, if_neg (by norm_num : (1000 : ℝ) ≠ 0),
      if_pos (by norm_num : (0 : ℝ) / 1000 ≤ 0)]

/-- Claim C1, witness: the amended resistance formula instantiated at raw
sample 500. -/
theorem claim1_witness :
    calculateRs 500 = some (3.3 * 1000 / ((500 : ℚ) * (3.3 / 4095)) - 1000) :=
  claim1_amended.1 500 (by norm_num) (by norm_num)

/-! Claim C2 (calibration): counterexample, amended theorem, witness. -/

/-- Claim C2, counterexample.  Feeding a constant raw sample of 2000,
`calibrate` sets r0 = 419/24 ≈ 17.458, which is not within 1.0 of the claimed
3900.0 / 60.0 = 65. -/
theorem claim2_counterexample :
    calibrateStream f2000 = some (419 / 24) ∧
    ¬ |(419 / 24 : ℚ) - 3900 / 60| < 1 := by
  refine ⟨calibrateStream_f2000, ?_⟩
  intro h
  rw [show (419 / 24 : ℚ) - 3900 / 60 = -(1141 / 24) from by norm_num, abs_neg,
    abs_of_nonneg (by norm_num : (0 : ℚ) ≤ 1141 / 24)] at h
  norm_num at h

/-- Claim C2, amended.  `calibrate()` reads exactly NUM_CALIBRATION_READINGS
(10) samples, divides each computed resistance by AIR_R0_RATIO (60.0) and
sets r0 to the arithmetic mean of the ratioed values, and the run displays
"Calibrating..." then "Calibration done" in that order; but for a constant
raw sample of 2000 the resulting r0 is exactly 1047.5 / 60 ≈ 17.458 (not
≈ 3900.0 / 60.0 = 65). -/
theorem claim2_amended :
    (∀ f g : ℕ → ℕ, (∀ i, i < NUM_CALIBRATION_READINGS → f i = g i) →
      calibrateStream f = calibrateStream g) ∧
    (calibSamples f2000 0).length = NUM_CALIBRATION_READINGS ∧
    (∀ samples : List ℕ, (∀ s ∈ samples, s ≠ 0) →
      calibrate samples =
        some ((samples.map fun s => rsValue s / airR0Ratio).sum /
          (NUM_CALIBRATION_READINGS : ℚ))) ∧
    calibrateStream f2000 = some (rsValue 2000 / airR0Ratio) ∧
    calibrateMessages (calibSamples f2000 0) =
      ["Calibrating...", "Calibration done"] := by
  refine ⟨?_, by simp [calibSamples], calibrate_eq_mean, ?_, ?_⟩
  · intro f g h
    rw [calibrateStream, calibrateStream, calibSamples, calibSamples]
    congr 1
    apply List.map_congr_left
    intro i hi
    exact h (0 + i) (by have := List.mem_range.mp hi; omega)
  · rw [calibrateStream_f2000, rsValue_2000, airR0Ratio]
    norm_num
  · rw [calibrateMessages, if_pos]
    have h : calibSamples f2000 0 = List.replicate NUM_CALIBRATION_READINGS 2000 := by
      simp [calibSamples, f2000]
    rw [h, calibSum_eq_sum _ (by intro s hs; rw [List.eq_of_mem_replicate hs]; omega) 0]
    rfl

/-- Claim C2, witness: calibration depends only on the first 10 stream
samples — the constant-2000 stream and a stream that is 2000 only below
index 10 calibrate identically. -/
theorem claim2_witness :
    calibrateStream f2000 =
      calibrateStream (fun i => if i < NUM_CALIBRATION_READINGS then 2000 else 0) :=
  claim2_amended.1 f2000 _ (by intro i hi; simp [f2000, hi])

/-! Claim C3 (moving-average smoother): counterexample, amended, witness. -/

/-- Claim C3, counterexample.  The very first smoothed output with r0 = 1000
and raw sample 1000 is the window mean of the single converted value, which
is at most 0.4 — not within 0.001 of the claimed 3.4846. -/
theorem claim3_counterexample :
    getSmoothedReading 1000 1000 [] =
      some (average [concAt1000 1000], [concAt1000 1000]) ∧
    average [concAt1000 1000] ≤ 0.4 ∧
    ¬ |average [concAt1000 1000] - 3.4846| < 0.001 := by
  have h0 : getSmoothedReading 1000 1000 [] =
      some (average (pushReading [] (concAt1000 1000)),
        pushReading [] (concAt1000 1000)) :=
    getSmoothed_eq (by omega) (by rw [rsValue_1000]; norm_num) []
  have hp : pushReading [] (concAt1000 1000) = [concAt1000 1000] := by
    rw [pushReading]
    norm_num [maxReadings]
  rw [hp] at h0
  refine ⟨h0, ?_, ?_⟩
  · rw [avg_single]
    exact concAt1000_le_04_1000
  · intro h
    have h2 := (abs_lt.mp h).1
    rw [avg_single] at h2
    have h3 := concAt1000_le_04_1000
    linarith

/-- Claim C3, amended.  Each call appends the new converted concentration,
evicts the oldest entry exactly when the window would exceed N = 10, and
returns the mean of the window; the window length never exceeds N and order
is insertion order.  But with r0 = 1000 and raw samples
[1000, 2000, 3000, 4000, 3000, 2000, 1000] the smoothed outputs are the
running means of the concentrations at the true resistances
[3095, 1047.5, 365, 23.75, 365, 1047.5, 3095] — the first of which is at
most 0.4, not ≈ 3.4846 (the claimed values ≈ [3.4846, 2.1816, 1.5761,
1.2232, 1.0375, 0.9247, 0.8787] are not attained within 0.001). -/
theorem claim3_amended :
    (∀ (readings : List ℝ) (x : ℝ),
      pushReading readings x =
        if readings.length < maxReadings then readings ++ [x]
        else (readings ++ [x]).tail) ∧
    (∀ (readings : List ℝ) (x : ℝ), readings.length ≤ maxReadings →
      (pushReading readings x).length ≤ maxReadings) ∧
    smoothRun 1000 [1000, 2000, 3000, 4000, 3000, 2000, 1000] [] =
      some (runningMeans
        [concAt1000 1000, concAt1000 2000, concAt1000 3000, concAt1000 4000,
         concAt1000 3000, concAt1000 2000, concAt1000 1000]) ∧
    average [concAt1000 1000] ≤ 0.4 := by
  refine ⟨?_, ?_, ?_, by rw [avg_single]; exact concAt1000_le_04_1000⟩
  · intro readings x
    rw [pushReading]
    by_cases h : readings.length < maxReadings
    · rw [if_neg (by simp only [List.length_append, List.length_singleton]; omega),
        if_pos h]
    · rw [if_pos (by simp only [List.length_append, List.length_singleton]; omega),
        if_neg h]
  · intro readings x h
    rw [pushReading]
    split_ifs with hlen
    · simp only [List.length_tail, List.length_append, List.length_singleton]
      omega
    · simp only [List.length_append, List.length_singleton] at hlen ⊢
      omega
  · have h1 : (1000 : ℕ) ≠ 0 := by omega
    have h2 : (2000 : ℕ) ≠ 0 := by omega
    have h3 : (3000 : ℕ) ≠ 0 := by omega
    have h4 : (4000 : ℕ) ≠ 0 := by omega
    have r1 : 0 < rsValue 1000 := by rw [rsValue_1000]; norm_num
    have r2 : 0 < rsValue 2000 := by rw [rsValue_2000]; norm_num
    have r3 : 0 < rsValue 3000 := by rw [rsValue_3000]; norm_num
    have r4 : 0 < rsValue 4000 := by rw [rsValue_4000]; norm_num
    simp only [smoothRun, getSmoothed_eq h1 r1, getSmoothed_eq h2 r2,
      getSmoothed_eq h3 r3, getSmoothed_eq h4 r4, pushReading, maxReadings,
      List.length_append, List.length_cons, List.length_nil, List.nil_append,
      List.cons_append, average, runningMeans]
    norm_num [List.range_succ, List.sum_cons]

/-- Claim C3, witness: the window-capacity invariant instantiated at the
empty window. -/
theorem claim3_witness : (pushReading [] 0).length ≤ maxReadings :=
  claim3_amended.2.1 [] 0 (by norm_num [maxReadings])

/-! Claim C5 (post-calibration positivity): counterexample, amended, witness. -/

/-- Claim C5, counterexample.  A sample sequence drawn from [0, 4095] that
reads 4095 constantly calibrates to r0 = 0, which is not strictly positive;
and a sequence containing a 0 sample makes calibration fault instead of
completing. -/
theorem claim5_counterexample :
    calibrateStream (fun _ => 4095) = some 0 ∧
    ¬ (0 : ℚ) < 0 ∧
    calibrateStream (fun _ => 0) = none := by
  refine ⟨?_, by norm_num, ?_⟩
  · rw [calibrateStream, calibSamples_const,
      calibrate_eq_mean _ (by intro s hs; rw [List.eq_of_mem_replicate hs]; omega)]
    norm_num [NUM_CALIBRATION_READINGS, rsValue_4095]
  · rw [calibrateStream, calibSamples_const, calibrate,
      show List.replicate NUM_CALIBRATION_READINGS 0 = 0 :: List.replicate 9 0 from rfl,
      calibSum, show calculateRs 0 = none from by simp [calculateRs, sensorVolt]]
    rfl

/-- Claim C5, amended.  Before any calibration r0 holds the default 1.0.  For
sample sequences drawn from [1, 4095], calibration completes and yields
r0 ≥ 0, with r0 > 0 exactly when some consumed sample is below 4095 (an
all-4095 sequence yields r0 = 0); a raw sample of 0 makes calibration raise
a division fault rather than complete. -/
theorem claim5_amended :
    initialR0 = 1 ∧
    (∀ samples : List ℕ, (∀ s ∈ samples, 1 ≤ s ∧ s ≤ 4095) →
      ∃ q : ℚ, calibrate samples = some q ∧ 0 ≤ q ∧
        (0 < q ↔ ∃ s ∈ samples, s < 4095)) ∧
    calibrateStream (fun _ => 0) = none := by
  refine ⟨rfl, ?_, claim5_counterexample.2.2⟩
  intro samples h
  obtain ⟨hsum0, hsumiff⟩ := rs_sum_sign samples h
  refine ⟨_, calibrate_eq_mean samples (fun s hs => by have := h s hs; omega), ?_, ?_⟩
  · exact div_nonneg hsum0 (by norm_num [NUM_CALIBRATION_READINGS])
  · rw [← hsumiff, lt_div_iff₀ (by norm_num [NUM_CALIBRATION_READINGS] :
      (0 : ℚ) < (NUM_CALIBRATION_READINGS : ℚ)), zero_mul]

/-- Claim C5, witness: the amended calibration property instantiated at the
concrete sample list [1000, 4095]. -/
theorem claim5_witness :
    ∃ q : ℚ, calibrate [1000, 4095] = some q ∧ 0 ≤ q ∧
      (0 < q ↔ ∃ s ∈ [1000, 4095], s < 4095) :=
  claim5_amended.2.1 [1000, 4095]
    (by intro s hs; simp only [List.mem_cons, List.not_mem_nil, or_false] at hs
        rcases hs with h | h <;> omega)

/-! Claim C8 (zero-r0 guard law): theorem and witness. -/

/-- Claim C8 (confirmed).  With r0 = 0 the conversion returns exactly 0 as a
defined fallback for every resistance, and the full read returns 0 without
faulting for every sample that produces a resistance (the `math.pow` call is
never reached). -/
theorem claim8_theorem :
    (∀ r : ℝ, concentrationFromResistance r 0 = some 0) ∧
    (∀ s : ℕ, 1 ≤ s → readRawValueOfAlcohol s 0 = some 0) := by
  refine ⟨fun r => by rw [concentrationFromResistance, if_pos rfl], ?_⟩
  intro s hs
  rw [readRawValueOfAlcohol, calculateRs_of_pos (by omega)]
  show concentrationFromResistance ((rsValue s : ℚ) : ℝ) 0 = some 0
  rw [concentrationFromResistance, if_pos rfl]

/-- Claim C8, witness: the guard law at raw sample 4095, where the resistance
is 0 and an actual `math.pow` call would have faulted. -/
theorem claim8_witness : readRawValueOfAlcohol 4095 0 = some 0 :=
  claim8_theorem.2 4095 (by norm_num)

/-! Claim C9 (zero-voltage division fault): theorem and witness. -/

/-- Claim C9 (confirmed).  The resistance computation succeeds for every raw
sample in [1, 4095], and its division fault is reachable exactly at sample 0,
where the derived voltage is 0. -/
theorem claim9_theorem :
    (∀ s : ℕ, 1 ≤ s → s ≤ 4095 → calculateRs s = some (rsValue s)) ∧
    (∀ s : ℕ, calculateRs s = none ↔ s = 0) ∧
    sensorVolt 0 = 0 := by
  refine ⟨fun s h1 _ => calculateRs_of_pos (by omega), ?_, by simp [sensorVolt]⟩
  intro s
  constructor
  · intro h
    by_contra hs
    rw [calculateRs_of_pos hs] at h
    exact Option.noConfusion h
  · intro h
    subst h
    rw [calculateRs, if_pos (by simp [sensorVolt])]

/-- Claim C9, witness: the fault-freeness part at raw sample 1. -/
theorem claim9_witness : calculateRs 1 = some (rsValue 1) :=
  claim9_theorem.1 1 (by norm_num) (by norm_num)

/-! Claim C10 (monotone decreasing response): theorem and witness. -/

/-- Claim C10 (confirmed).  For r0 > 0 and resistances 0 < rs1 < rs2 the
conversion succeeds on both, both concentrations are strictly positive, and
the one at the larger resistance is strictly smaller. -/
theorem claim10_theorem (r0 rs1 rs2 : ℝ) (h0 : 0 < r0) (h1 : 0 < rs1)
    (h12 : rs1 < rs2) :
    ∃ c1 c2 : ℝ, concentrationFromResistance rs1 r0 = some c1 ∧
      concentrationFromResistance rs2 r0 = some c2 ∧ 0 < c2 ∧ c2 < c1 := by
  have h2 : 0 < rs2 := lt_trans h1 h12
  have hd1 : 0 < rs1 / r0 := div_pos h1 h0
  have hd2 : 0 < rs2 / r0 := div_pos h2 h0
  refine ⟨_, _, concentrationFromResistance_some (ne_of_gt h0) hd1,
    concentrationFromResistance_some (ne_of_gt h0) hd2, ?_, ?_⟩
  · exact mul_pos (by norm_num) (Real.rpow_pos_of_pos hd2 _)
  · have hlt : rs1 / r0 < rs2 / r0 := (div_lt_div_iff_of_pos_right h0).mpr h12
    have hp := Real.rpow_lt_rpow_of_neg hd1 hlt (by norm_num : (-1.43068 : ℝ) < 0)
    nlinarith

/-- Claim C10, witness: monotonicity at r0 = 2, rs1 = 1, rs2 = 3. -/
theorem claim10_witness :
    ∃ c1 c2 : ℝ, concentrationFromResistance 1 2 = some c1 ∧
      concentrationFromResistance 3 2 = some c2 ∧ 0 < c2 ∧ c2 < c1 :=
  claim10_theorem 2 1 3 (by norm_num) (by norm_num) (by norm_num)

/-! Helper lemmas about the control loop's event traces and concrete polls. -/

theorem sampleEvents_shape {st : DeviceState} {p : DeviceState × Event} :
    ∀ {l : List ℕ}, p ∈ sampleEvents st l → p.1 = st ∧ p.2 = Event.sample := by
  intro l
  induction l with
  | nil => intro h; simp [sampleEvents] at h
  | cons s rest ih =>
    intro h
    rw [sampleEvents] at h
    rcases List.mem_cons.mp h with h | h
    · subst h; exact ⟨rfl, rfl⟩
    · by_cases hz : s = 0
      · rw [if_pos hz] at h; simp at h
      · rw [if_neg hz] at h; exact ih h

theorem calibrateEvents_shape {st : DeviceState} {samples : List ℕ}
    {p : DeviceState × Event} (h : p ∈ calibrateEvents st samples) :
    p.1 = st ∧ (p.2 = Event.sample ∨ ∃ m, p.2 = Event.display m) := by
  rw [calibrateEvents] at h
  rcases List.mem_cons.mp h with h | h
  · subst h; exact ⟨rfl, Or.inr ⟨_, rfl⟩⟩
  · rcases List.mem_append.mp h with h | h
    · obtain ⟨h1, h2⟩ := sampleEvents_shape h
      exact ⟨h1, Or.inl h2⟩
    · by_cases hs : (calibSum samples 0).isSome
      · rw [if_pos hs] at h
        simp only [List.mem_singleton] at h
        subst h; exact ⟨rfl, Or.inr ⟨_, rfl⟩⟩
      · rw [if_neg hs] at h; simp at h

theorem warmUpEvents_shape {p : DeviceState × Event} (h : p ∈ warmUpEvents) :
    p.1 = DeviceState.on ∧ ∃ m, p.2 = Event.display m := by
  rw [warmUpEvents] at h
  rcases List.mem_cons.mp h with h | h
  · subst h; exact ⟨rfl, _, rfl⟩
  · obtain ⟨i, _, hi⟩ := List.mem_map.mp h
    rw [← hi]
    exact ⟨rfl, _, rfl⟩

theorem readingPhase_shape {f : ℕ → ℕ} {ls : LoopState} {now : ℕ}
    {p : DeviceState × Event} (h : p ∈ (readingPhase f ls now).2) :
    p.1 = DeviceState.on := by
  rw [readingPhase] at h
  split_ifs at h <;> simp only [List.mem_cons, List.mem_singleton, List.not_mem_nil] at h
  · rcases h with h | h
    · rw [h]
    · simp at h
  · rcases h with h | h | h
    · rw [h]
    · rw [h]
    · simp at h

theorem readingPhase_fst_state {f : ℕ → ℕ} {ls : LoopState} {now : ℕ}
    {ls' : LoopState} (h : (readingPhase f ls now).1 = some ls') :
    ls'.state = ls.state := by
  rw [readingPhase] at h
  split_ifs at h
  all_goals cases h
  all_goals rfl

theorem loopStep_event_shape {f : ℕ → ℕ} {ls : LoopState} {pressed : Bool}
    {now : ℕ} {p : DeviceState × Event}
    (h : p ∈ (loopStep f ls pressed now).2) :
    p.1 = DeviceState.on ∨
      (p.1 = DeviceState.calibrating ∧
        (p.2 = Event.sample ∨ ∃ m, p.2 = Event.display m)) ∨
      p = (DeviceState.off, Event.display "OFF") := by
  simp only [loopStep] at h
  split_ifs at h
  · cases hcal : calibrate (calibSamples f ls.cursor) with
    | none =>
      simp only [hcal] at h
      rcases List.mem_append.mp h with h | h
      · exact Or.inl (warmUpEvents_shape h).1
      · exact Or.inl (calibrateEvents_shape h).1
    | some r0v =>
      simp only [hcal] at h
      rcases List.mem_append.mp h with h | h
      · rcases List.mem_append.mp h with h | h
        · rcases List.mem_append.mp h with h | h
          · exact Or.inl (warmUpEvents_shape h).1
          · exact Or.inl (calibrateEvents_shape h).1
        · simp only [List.mem_singleton] at h
          subst h; exact Or.inl rfl
      · exact Or.inl (readingPhase_shape h)
  · rcases List.mem_cons.mp h with h | h
    · subst h; exact Or.inr (Or.inr rfl)
    · exact Or.inl (readingPhase_shape h)
  · cases hcal : calibrate (calibSamples f ls.cursor) with
    | none =>
      simp only [hcal] at h
      obtain ⟨h1, h2⟩ := calibrateEvents_shape h
      exact Or.inr (Or.inl ⟨h1, h2⟩)
    | some r0v =>
      simp only [hcal] at h
      rcases List.mem_append.mp h with h | h
      · obtain ⟨h1, h2⟩ := calibrateEvents_shape h
        exact Or.inr (Or.inl ⟨h1, h2⟩)
      · exact Or.inl (readingPhase_shape h)
  · exact Or.inl (readingPhase_shape h)
  · exact Or.inl (readingPhase_shape h)

theorem calibSamples_f2000 (c : ℕ) :
    calibSamples f2000 c = List.replicate NUM_CALIBRATION_READINGS 2000 := by
  simp [calibSamples, f2000]

theorem calibrate_f2000 (c : ℕ) :
    calibrate (calibSamples f2000 c) = some (419 / 24) := by
  rw [calibSamples_f2000, calibrate_const2000]

theorem readFaults_f2000 : readFaults 2000 (419 / 24) = false := by
  rw [readFaults]
  simp only [Bool.or_eq_false_iff, Bool.and_eq_false_iff, decide_eq_false_iff_not,
    Decidable.not_not]
  constructor
  · norm_num [sensorVolt]
  · right
    norm_num [rsValue_2000]

theorem step1 : loopStep f2000 initialState true 10 =
    (some (⟨DeviceState.off, 10, 0, 1, 0⟩ : LoopState), []) := by
  decide

theorem step2_fst :
    (loopStep f2000 (⟨DeviceState.off, 10, 0, 1, 0⟩ : LoopState) false 13).1 =
      some (⟨DeviceState.on, 0, 13, 419 / 24, 11⟩ : LoopState) := by
  simp only [loopStep]
  norm_num [checkButton, LONG_PRESS_TIME]
  rw [calibrate_f2000]
  simp only [readingPhase]
  norm_num [f2000, readFaults_f2000, NUM_CALIBRATION_READINGS]

theorem step3_fst :
    (loopStep f2000 (⟨DeviceState.on, 0, 13, 419 / 24, 11⟩ : LoopState) true 40).1 =
      some stateC4 := by
  simp only [loopStep]
  norm_num [checkButton]
  simp only [readingPhase]
  norm_num [f2000, readFaults_f2000, stateC4]

theorem runLoop_fst_cons (f : ℕ → ℕ) (ls : LoopState) (p : Bool) (t : ℕ)
    (rest : List (Bool × ℕ)) :
    (runLoop f ls ((p, t) :: rest)).1 =
      (loopStep f ls p t).1.bind fun ls2 => (runLoop f ls2 rest).1 := by
  rw [runLoop]
  rcases h : loopStep f ls p t with ⟨a, evs⟩
  cases a <;> simp

theorem runLoop_fst_cons_some {f : ℕ → ℕ} {ls ls2 : LoopState} {p : Bool} {t : ℕ}
    (rest : List (Bool × ℕ)) (h : (loopStep f ls p t).1 = some ls2) :
    (runLoop f ls ((p, t) :: rest)).1 = (runLoop f ls2 rest).1 := by
  rw [runLoop_fst_cons, h]
  rfl

theorem reach_stateC4 :
    (runLoop f2000 initialState [(true, 10), (false, 13), (true, 40)]).1 =
      some stateC4 := by
  rw [runLoop_fst_cons_some _ (by rw [step1]),
    runLoop_fst_cons_some _ step2_fst,
    runLoop_fst_cons_some _ step3_fst]
  rfl

theorem stepC7c_fst :
    (loopStep f2000 (⟨DeviceState.on, 0, 13, 419 / 24, 11⟩ : LoopState) true 20).1 =
      some (⟨DeviceState.on, 20, 20, 419 / 24, 12⟩ : LoopState) := by
  simp only [loopStep]
  norm_num [checkButton]
  simp only [readingPhase]
  norm_num [f2000, readFaults_f2000]

theorem stepC7d_fst :
    (loopStep f2000 (⟨DeviceState.on, 20, 20, 419 / 24, 12⟩ : LoopState) false 23).1 =
      some (⟨DeviceState.off, 0, 20, 419 / 24, 12⟩ : LoopState) := by
  simp only [loopStep]
  norm_num [checkButton, LONG_PRESS_TIME]
  simp [readingPhase]

theorem stepC7e_fst :
    (loopStep f2000 (⟨DeviceState.off, 0, 20, 419 / 24, 12⟩ : LoopState) true 30).1 =
      some (⟨DeviceState.off, 30, 20, 419 / 24, 12⟩ : LoopState) := by
  simp only [loopStep]
  norm_num [checkButton]
  simp [readingPhase]

theorem stepC7f_fst :
    (loopStep f2000 (⟨DeviceState.off, 30, 20, 419 / 24, 12⟩ : LoopState) false 33).1 =
      some (⟨DeviceState.on, 0, 33, 419 / 24, 23⟩ : LoopState) := by
  simp only [loopStep]
  norm_num [checkButton, LONG_PRESS_TIME]
  rw [calibrate_f2000]
  simp only [readingPhase]
  norm_num [f2000, readFaults_f2000, NUM_CALIBRATION_READINGS]

theorem stepC4_cal_display :
    (DeviceState.calibrating, Event.display "Calibrating...") ∈
      (loopStep f2000 stateC4 true 41).2 := by
  simp only [loopStep]
  norm_num [checkButton, stateC4, LONG_PRESS_TIME]
  rw [calibrate_f2000]
  simp [calibrateEvents]

theorem stepC4_cal_sample :
    (DeviceState.calibrating, Event.sample) ∈
      (loopStep f2000 stateC4 true 41).2 := by
  simp only [loopStep]
  norm_num [checkButton, stateC4, LONG_PRESS_TIME]
  rw [calibrate_f2000]
  simp [calibrateEvents, calibSamples_f2000, NUM_CALIBRATION_READINGS,
    List.replicate_succ, sampleEvents]

theorem stepC4_off_display :
    (DeviceState.off, Event.display "OFF") ∈
      (loopStep f2000 stateC4 true 43).2 := by
  simp only [loopStep]
  norm_num [checkButton, stateC4, LONG_PRESS_TIME]
  simp [readingPhase]

theorem shortPress_spec (f : ℕ → ℕ) (ls : LoopState) (pressed : Bool) (now : ℕ)
    (ls' : LoopState) (evs : List (DeviceState × Event))
    (hon : ls.state = DeviceState.on)
    (h0 : 0 < (checkButton ls.buttonPressTime now pressed).1)
    (h3 : (checkButton ls.buttonPressTime now pressed).1 < LONG_PRESS_TIME)
    (heq : loopStep f ls pressed now = (some ls', evs)) :
    ls'.state = DeviceState.on ∧
      (DeviceState.calibrating, Event.display "Calibrating...") ∈ evs ∧
      ∀ e, (DeviceState.off, e) ∉ evs := by
  simp only [loopStep] at heq
  rw [if_pos h0, if_neg (not_le.mpr h3), if_pos hon] at heq
  cases hcal : calibrate (calibSamples f ls.cursor) with
  | none => simp only [hcal] at heq; cases heq
  | some r0v =>
    simp only [hcal] at heq
    rw [Prod.mk.injEq] at heq
    obtain ⟨h1, h2⟩ := heq
    refine ⟨?_, ?_, ?_⟩
    · rw [readingPhase_fst_state h1]
    · rw [← h2]
      exact List.mem_append_left _ (List.mem_cons_self _ _)
    · intro e hmem
      rw [← h2] at hmem
      rcases List.mem_append.mp hmem with hm | hm
      · cases (calibrateEvents_shape hm).1
      · cases readingPhase_shape hm

theorem step_state_not_calibrating (f : ℕ → ℕ) (ls : LoopState) (pressed : Bool)
    (now : ℕ) (ls' : LoopState) (evs : List (DeviceState × Event))
    (hne : ls.state ≠ DeviceState.calibrating)
    (heq : loopStep f ls pressed now = (some ls', evs)) :
    ls'.state ≠ DeviceState.calibrating := by
  simp only [loopStep] at heq
  split_ifs at heq
  · cases hcal : calibrate (calibSamples f ls.cursor) with
    | none => simp only [hcal] at heq; cases heq
    | some r0v =>
      simp only [hcal] at heq
      rw [Prod.mk.injEq] at heq
      rw [readingPhase_fst_state heq.1]
      simp
  · rw [Prod.mk.injEq] at heq
    rw [readingPhase_fst_state heq.1]
    simp
  · cases hcal : calibrate (calibSamples f ls.cursor) with
    | none => simp only [hcal] at heq; cases heq
    | some r0v =>
      simp only [hcal] at heq
      rw [Prod.mk.injEq] at heq
      rw [readingPhase_fst_state heq.1]
      simp
  · rw [Prod.mk.injEq] at heq
    rw [readingPhase_fst_state heq.1]
    exact hne
  · rw [Prod.mk.injEq] at heq
    rw [readingPhase_fst_state heq.1]
    exact hne

/-! Claim C4 (short-press recalibration on release only): counterexample,
amended theorem, witness. -/

/-- Claim C4, counterexample.  From the reachable state `stateC4` (device ON,
button held since t = 40), the poll at t = 41 with the button STILL HELD
reports duration d = 1 with 0 < d < LONG_PRESS_TIME, and calibration starts
on that very poll — not only on the release event. -/
theorem claim4_counterexample :
    (runLoop f2000 initialState [(true, 10), (false, 13), (true, 40)]).1 =
      some stateC4 ∧
    stateC4.state = DeviceState.on ∧
    checkButton stateC4.buttonPressTime 41 true = (1, 40) ∧
    (0 < 1 ∧ 1 < LONG_PRESS_TIME) ∧
    (DeviceState.calibrating, Event.display "Calibrating...") ∈
      (loopStep f2000 stateC4 true 41).2 :=
  ⟨reach_stateC4, rfl, rfl, ⟨by norm_num, by norm_num [LONG_PRESS_TIME]⟩,
    stepC4_cal_display⟩

/-- Claim C4, amended.  Recalibration starts on EVERY poll in which the state
is ON and `check_button` reports a duration d with 0 < d < LONG_PRESS_TIME —
whether the button is still held (the integer-second hold time is returned
while pressed) or just released — so one short press can start several
recalibrations, not exactly one on the release poll. -/
theorem claim4_amended (f : ℕ → ℕ) (ls : LoopState) (pressed : Bool) (now : ℕ)
    (hon : ls.state = DeviceState.on)
    (h0 : 0 < (checkButton ls.buttonPressTime now pressed).1)
    (h3 : (checkButton ls.buttonPressTime now pressed).1 < LONG_PRESS_TIME) :
    (DeviceState.calibrating, Event.display "Calibrating...") ∈
      (loopStep f ls pressed now).2 := by
  simp only [loopStep]
  rw [if_pos h0, if_neg (not_le.mpr h3), if_pos hon]
  cases hcal : calibrate (calibSamples f ls.cursor) with
  | none => simp [hcal, calibrateEvents]
  | some r0v => simp [hcal, calibrateEvents]

/-- Claim C4, witness: the amended rule at `stateC4` with the button still
held at t = 41. -/
theorem claim4_witness :
    (DeviceState.calibrating, Event.display "Calibrating...") ∈
      (loopStep f2000 stateC4 true 41).2 :=
  claim4_amended f2000 stateC4 true 41 rfl (by decide) (by decide)

/-! Claim C6 (state-gated I/O): counterexample, amended theorem, witness. -/

/-- Claim C6, counterexample.  In a reachable execution, sensor sampling
happens while the state is CALIBRATING (short-press recalibration at t = 41),
and a display update happens while the state is OFF (the "OFF" status message
after a long press at t = 43) — so I/O is not confined to state ON. -/
theorem claim6_counterexample :
    (runLoop f2000 initialState [(true, 10), (false, 13), (true, 40)]).1 =
      some stateC4 ∧
    (DeviceState.calibrating, Event.sample) ∈ (loopStep f2000 stateC4 true 41).2 ∧
    (DeviceState.off, Event.display "OFF") ∈ (loopStep f2000 stateC4 true 43).2 :=
  ⟨reach_stateC4, stepC4_cal_sample, stepC4_off_display⟩

/-- Claim C6, amended.  The periodic reading display runs only while the
state is ON, and sensor sampling occurs only while the state is ON (periodic
reads and warm-up calibration) or CALIBRATING (short-press recalibration);
but display updates are not confined to ON: the post-toggle status message is
rendered in the new state (possibly OFF) and recalibration I/O happens while
CALIBRATING. -/
theorem claim6_amended (f : ℕ → ℕ) (ls : LoopState) (pressed : Bool) (now : ℕ)
    (st : DeviceState) (e : Event)
    (h : (st, e) ∈ (loopStep f ls pressed now).2) :
    (e = Event.displayReadings → st = DeviceState.on) ∧
    (e = Event.sample → st = DeviceState.on ∨ st = DeviceState.calibrating) := by
  have hs := loopStep_event_shape h
  constructor
  · intro he
    subst he
    rcases hs with h1 | ⟨h1, h2 | ⟨m, h2⟩⟩ | h1
    · exact h1
    · cases h2
    · cases h2
    · cases h1
  · intro he
    subst he
    rcases hs with h1 | ⟨h1, h2⟩ | h1
    · exact Or.inl h1
    · exact Or.inr h1
    · cases h1

/-- Claim C6, witness: the amended I/O rule at the concrete CALIBRATING
sample event of the short-press poll. -/
theorem claim6_witness :
    (Event.sample = Event.displayReadings →
      DeviceState.calibrating = DeviceState.on) ∧
    (Event.sample = Event.sample →
      DeviceState.calibrating = DeviceState.on ∨
        DeviceState.calibrating = DeviceState.calibrating) :=
  claim6_amended f2000 stateC4 true 41 DeviceState.calibrating Event.sample
    stepC4_cal_sample

/-! Claim C7 (gesture sequencing): theorem and witness. -/

/-- Claim C7 (confirmed).  Starting from OFF, three polls each reporting a
long press (d >= LONG_PRESS_TIME = 3) drive the state through
OFF→ON→OFF→ON; a short press while ON runs calibration under the transient
CALIBRATING state, never emits any OFF-tagged I/O, and ends the poll back in
ON; and no successful poll ever ends with the state CALIBRATING, so
CALIBRATING never persists across poll cycles. -/
theorem claim7_theorem :
    initialState.state = DeviceState.off ∧
    (runLoop f2000 initialState [(true, 10), (false, 13)]).1.map LoopState.state =
      some DeviceState.on ∧
    (runLoop f2000 initialState
      [(true, 10), (false, 13), (true, 20), (false, 23)]).1.map LoopState.state =
      some DeviceState.off ∧
    (runLoop f2000 initialState
      [(true, 10), (false, 13), (true, 20), (false, 23), (true, 30),
        (false, 33)]).1.map LoopState.state = some DeviceState.on ∧
    (∀ (f : ℕ → ℕ) (ls : LoopState) (pressed : Bool) (now : ℕ) (ls' : LoopState)
        (evs : List (DeviceState × Event)),
      ls.state = DeviceState.on →
      0 < (checkButton ls.buttonPressTime now pressed).1 →
      (checkButton ls.buttonPressTime now pressed).1 < LONG_PRESS_TIME →
      loopStep f ls pressed now = (some ls', evs) →
      ls'.state = DeviceState.on ∧
        (DeviceState.calibrating, Event.display "Calibrating...") ∈ evs ∧
        ∀ e, (DeviceState.off, e) ∉ evs) ∧
    (∀ (f : ℕ → ℕ) (ls : LoopState) (pressed : Bool) (now : ℕ) (ls' : LoopState)
        (evs : List (DeviceState × Event)),
      ls.state ≠ DeviceState.calibrating →
      loopStep f ls pressed now = (some ls', evs) →
      ls'.state ≠ DeviceState.calibrating) := by
  refine ⟨rfl, ?_, ?_, ?_, shortPress_spec, step_state_not_calibrating⟩
  · rw [runLoop_fst_cons_some _ (by rw [step1]), runLoop_fst_cons_some _ step2_fst]
    rfl
  · rw [runLoop_fst_cons_some _ (by rw [step1]), runLoop_fst_cons_some _ step2_fst,
      runLoop_fst_cons_some _ stepC7c_fst, runLoop_fst_cons_some _ stepC7d_fst]
    rfl
  · rw [runLoop_fst_cons_some _ (by rw [step1]), runLoop_fst_cons_some _ step2_fst,
      runLoop_fst_cons_some _ stepC7c_fst, runLoop_fst_cons_some _ stepC7d_fst,
      runLoop_fst_cons_some _ stepC7e_fst, runLoop_fst_cons_some _ stepC7f_fst]
    rfl

/-- Claim C7, witness: the non-persistence of CALIBRATING instantiated at the
first poll from the initial state. -/
theorem claim7_witness :
    (⟨DeviceState.off, 10, 0, 1, 0⟩ : LoopState).state ≠ DeviceState.calibrating :=
  claim7_theorem.2.2.2.2.2 f2000 initialState true 10 _ [] (by decide) step1

end MQ3
